import Mathlib

/-!
# Verification of the RmWebapp copy-reconciliation engine

Shallow embedding of `backend/trade_copier.py` (class `TradeCopier`) and the
slice of its environment the copy engine depends on.  Python floats are
modelled as exact rationals (`Rat`); Python strings that are only compared
for equality stay `String`, strings that are scanned or sliced
character-by-character (symbol lists, order comments) are `List Char`;
Python dicts holding trade fields become structures, with `Option` for the
fields the code accesses via `dict.get`/`in`.  `settings.get(key, default)`
is modelled by quantifying over the field's value (covering both a
configured value and the default); `magic_number` keeps its `Option` since
its default (`provider_id`) is dynamic.
-/

namespace RmCopy

/-! ## Character-list helpers (Python string primitives used by the engine) -/

/-- Python `str.split(",")`: split at every comma, keeping empty parts. -/
def splitComma : List Char → List (List Char)
  | [] => [[]]
  | c :: rest =>
    if c = ',' then [] :: splitComma rest
    else
      match splitComma rest with
      | [] => [[c]]
      | g :: gs => (c :: g) :: gs

/-- ASCII whitespace recognised by Python `str.strip()`. -/
def isSpaceCh (c : Char) : Bool :=
  c == ' ' || c == '\t' || c == '\n' || c == '\r' || c == '\x0b' || c == '\x0c'

/-- Python `str.strip()` on a character list. -/
def stripCh (l : List Char) : List Char :=
  ((l.dropWhile isSpaceCh).reverse.dropWhile isSpaceCh).reverse

/-- `[s.strip() for s in text.split(',')]` from `should_copy_trade`. -/
def split_strip (l : List Char) : List (List Char) :=
  (splitComma l).map stripCh

/-! ## Settings (the `CopyPolicy`, as read from the settings dict) -/

/-- The settings fields `TradeCopier` reads.  `sym_pre`/`sym_suf` embed the
`symbol_prefix`/`symbol_suffix` entries. -/
structure Settings where
  lot_mode : String
  fixed_lot : Rat
  lot_multiplier : Rat
  risk_percent : Rat
  min_lot : Rat
  max_lot : Rat
  copy_buy : Bool
  copy_sell : Bool
  allowed_symbols : List Char
  blocked_symbols : List Char
  sym_pre : List Char
  sym_suf : List Char
  opposite_trades : Bool
  close_on_provider_close : Bool
  magic_number : Option Int

/-! ## Policy evaluator: `calculate_lot_size` (lines 37-71) -/

/-- The pre-clamp volume computed by `calculate_lot_size`, one branch per
`lot_mode` string, unknown modes falling through to the provider volume. -/
def raw_volume (s : Settings) (provider_volume provider_balance receiver_balance : Rat) : Rat :=
  if s.lot_mode = "same" then provider_volume
  else if s.lot_mode = "fixed" then s.fixed_lot
  else if s.lot_mode = "multiplier" then provider_volume * s.lot_multiplier
  else if s.lot_mode = "ratio" then
    if provider_balance > 0 then provider_volume * (receiver_balance / provider_balance)
    else provider_volume
  else if s.lot_mode = "risk" then (receiver_balance * (s.risk_percent / 100)) / 1000
  else provider_volume

/-- The min/max clamp applied at the end of `calculate_lot_size`. -/
def clamp_lot (s : Settings) (volume : Rat) : Rat :=
  if volume < s.min_lot then s.min_lot
  else if volume > s.max_lot then s.max_lot
  else volume

/-- `TradeCopier.calculate_lot_size`: mode-dependent sizing then clamping. -/
def calculate_lot_size (s : Settings) (provider_volume provider_balance receiver_balance : Rat) : Rat :=
  clamp_lot s (raw_volume s provider_volume provider_balance receiver_balance)

/-! ## Policy evaluator: `should_copy_trade` (lines 73-96) -/

/-- `TradeCopier.should_copy_trade`: direction toggles, then allow-list,
then block-list.  An empty list string is falsy in Python, so an empty
`allowed_symbols`/`blocked_symbols` disables the corresponding check. -/
def should_copy_trade (s : Settings) (trade_type : String) (symbol : List Char) : Bool :=
  if trade_type ∈ (["BUY", "BUY_LIMIT", "BUY_STOP"] : List String) ∧ s.copy_buy = false then
    false
  else if trade_type ∈ (["SELL", "SELL_LIMIT", "SELL_STOP"] : List String) ∧ s.copy_sell = false then
    false
  else if s.allowed_symbols ≠ [] ∧ symbol ∉ split_strip s.allowed_symbols then
    false
  else if s.blocked_symbols ≠ [] ∧ symbol ∈ split_strip s.blocked_symbols then
    false
  else true

/-! ## Policy evaluator: `get_opposite_trade_type` (lines 98-108) -/

/-- `TradeCopier.get_opposite_trade_type`: the six-direction mirror map,
identity on anything else (`dict.get(trade_type, trade_type)`). -/
def get_opposite_trade_type (trade_type : String) : String :=
  if trade_type = "BUY" then "SELL"
  else if trade_type = "SELL" then "BUY"
  else if trade_type = "BUY_LIMIT" then "SELL_LIMIT"
  else if trade_type = "SELL_LIMIT" then "BUY_LIMIT"
  else if trade_type = "BUY_STOP" then "SELL_STOP"
  else if trade_type = "SELL_STOP" then "BUY_STOP"
  else trade_type

/-! ## Claim theorems on the policy evaluator -/

/-- **C1.** For every sizing mode and all input volumes/balances, if the
policy satisfies `min_lot ≤ max_lot` then `calculate_lot_size` returns a
volume in `[min_lot, max_lot]` inclusive. -/
theorem calculate_lot_size_clamped (s : Settings) (pv pb rb : Rat)
    (h : s.min_lot ≤ s.max_lot) :
    s.min_lot ≤ calculate_lot_size s pv pb rb ∧
      calculate_lot_size s pv pb rb ≤ s.max_lot := by
  unfold calculate_lot_size clamp_lot
  split_ifs with h1 h2 <;> constructor <;> linarith

/-- Concrete policy used to witness C1 at an input. -/
def exSettingsC1 : Settings :=
  { lot_mode := "multiplier", fixed_lot := 1/100, lot_multiplier := 10,
    risk_percent := 1, min_lot := 1/100, max_lot := 5,
    copy_buy := true, copy_sell := true,
    allowed_symbols := [], blocked_symbols := [], sym_pre := [], sym_suf := [],
    opposite_trades := false, close_on_provider_close := true,
    magic_number := none }

/-- Witness for C1: the clamp bounds hold at a concrete policy and input. -/
theorem calculate_lot_size_clamped_witness :
    exSettingsC1.min_lot ≤ exSettingsC1.max_lot ∧
      (exSettingsC1.min_lot ≤ calculate_lot_size exSettingsC1 3 1 1 ∧
        calculate_lot_size exSettingsC1 3 1 1 ≤ exSettingsC1.max_lot) :=
  ⟨by norm_num [exSettingsC1],
   calculate_lot_size_clamped exSettingsC1 3 1 1 (by norm_num [exSettingsC1])⟩

/-- Concrete policy of the C5 scenario: multiplier 2.0, clamp [0.01, 5.0]. -/
def exSettingsC5 : Settings :=
  { lot_mode := "multiplier", fixed_lot := 1/100, lot_multiplier := 2,
    risk_percent := 1, min_lot := 1/100, max_lot := 5,
    copy_buy := true, copy_sell := true,
    allowed_symbols := [], blocked_symbols := [], sym_pre := [], sym_suf := [],
    opposite_trades := false, close_on_provider_close := true,
    magic_number := none }

/-- **C5.** Before clamping, `calculate_lot_size` computes per mode:
`same` → provider volume; `fixed` → fixed lot; `multiplier` → provider
volume × multiplier; `ratio` → provider volume × (receiver/provider
balance) when the provider balance is positive, else the provider volume;
`risk` → (receiver balance × risk percent / 100) / 1000.  Consequently the
multiplier-2.0 policy with clamp [0.01, 5.0] maps provider volume 1.2 to
2.4 and provider volume 3.0 to 5.0 (clamped). -/
theorem raw_volume_modes :
    (∀ (s : Settings) (pv pb rb : Rat), s.lot_mode = "same" →
      raw_volume s pv pb rb = pv) ∧
    (∀ (s : Settings) (pv pb rb : Rat), s.lot_mode = "fixed" →
      raw_volume s pv pb rb = s.fixed_lot) ∧
    (∀ (s : Settings) (pv pb rb : Rat), s.lot_mode = "multiplier" →
      raw_volume s pv pb rb = pv * s.lot_multiplier) ∧
    (∀ (s : Settings) (pv pb rb : Rat), s.lot_mode = "ratio" → 0 < pb →
      raw_volume s pv pb rb = pv * (rb / pb)) ∧
    (∀ (s : Settings) (pv pb rb : Rat), s.lot_mode = "ratio" → ¬ 0 < pb →
      raw_volume s pv pb rb = pv) ∧
    (∀ (s : Settings) (pv pb rb : Rat), s.lot_mode = "risk" →
      raw_volume s pv pb rb = (rb * (s.risk_percent / 100)) / 1000) ∧
    (∀ pb rb : Rat, calculate_lot_size exSettingsC5 (6/5) pb rb = 12/5) ∧
    (∀ pb rb : Rat, calculate_lot_size exSettingsC5 3 pb rb = 5) := by
  refine ⟨?_, ?_, ?_, ?_, ?_, ?_, ?_, ?_⟩
  · intro s pv pb rb h; simp [raw_volume, h, String.reduceEq]
  · intro s pv pb rb h; simp [raw_volume, h, String.reduceEq]
  · intro s pv pb rb h; simp [raw_volume, h, String.reduceEq]
  · intro s pv pb rb h hb; simp [raw_volume, h, hb, String.reduceEq]
  · intro s pv pb rb h hb; simp [raw_volume, h, hb, String.reduceEq]
  · intro s pv pb rb h; simp [raw_volume, h, String.reduceEq]
  · intro pb rb
    simp [calculate_lot_size, raw_volume, clamp_lot, exSettingsC5]
    norm_num
  · intro pb rb
    simp [calculate_lot_size, raw_volume, clamp_lot, exSettingsC5]
    norm_num

/-- Witness for C5: the multiplier branch evaluated at the scenario input. -/
theorem raw_volume_modes_witness :
    raw_volume exSettingsC5 (6/5) 1 1 = (6/5) * exSettingsC5.lot_multiplier :=
  raw_volume_modes.2.2.1 exSettingsC5 (6/5) 1 1 rfl

/-- Concrete policy with an unrecognised `lot_mode` string, for C10. -/
def exSettingsC10 : Settings :=
  { lot_mode := "banana", fixed_lot := 1/100, lot_multiplier := 2,
    risk_percent := 1, min_lot := 1/100, max_lot := 5,
    copy_buy := true, copy_sell := true,
    allowed_symbols := [], blocked_symbols := [], sym_pre := [], sym_suf := [],
    opposite_trades := false, close_on_provider_close := true,
    magic_number := none }

/-- **C10.** For every `lot_mode` string other than the five recognised
ones, `calculate_lot_size` falls back to the provider volume, clamped to
`[min_lot, max_lot]`; being a total Lean function it never fails. -/
theorem calculate_lot_size_unknown_mode (s : Settings) (pv pb rb : Rat)
    (h1 : s.lot_mode ≠ "same") (h2 : s.lot_mode ≠ "fixed")
    (h3 : s.lot_mode ≠ "multiplier") (h4 : s.lot_mode ≠ "ratio")
    (h5 : s.lot_mode ≠ "risk") :
    calculate_lot_size s pv pb rb = clamp_lot s pv := by
  unfold calculate_lot_size raw_volume
  split_ifs <;> first | rfl | contradiction

/-- Witness for C10: the `"banana"` mode behaves as clamped pass-through. -/
theorem calculate_lot_size_unknown_mode_witness :
    calculate_lot_size exSettingsC10 3 1 1 = clamp_lot exSettingsC10 3 :=
  calculate_lot_size_unknown_mode exSettingsC10 3 1 1
    (by decide) (by decide) (by decide) (by decide) (by decide)

/-- **C9.** `get_opposite_trade_type` maps each of the six directions to
its mirror, and applying it twice is the identity on all six. -/
theorem get_opposite_trade_type_involution :
    get_opposite_trade_type "BUY" = "SELL" ∧
    get_opposite_trade_type "SELL" = "BUY" ∧
    get_opposite_trade_type "BUY_LIMIT" = "SELL_LIMIT" ∧
    get_opposite_trade_type "SELL_LIMIT" = "BUY_LIMIT" ∧
    get_opposite_trade_type "BUY_STOP" = "SELL_STOP" ∧
    get_opposite_trade_type "SELL_STOP" = "BUY_STOP" ∧
    get_opposite_trade_type (get_opposite_trade_type "BUY") = "BUY" ∧
    get_opposite_trade_type (get_opposite_trade_type "SELL") = "SELL" ∧
    get_opposite_trade_type (get_opposite_trade_type "BUY_LIMIT") = "BUY_LIMIT" ∧
    get_opposite_trade_type (get_opposite_trade_type "SELL_LIMIT") = "SELL_LIMIT" ∧
    get_opposite_trade_type (get_opposite_trade_type "BUY_STOP") = "BUY_STOP" ∧
    get_opposite_trade_type (get_opposite_trade_type "SELL_STOP") = "SELL_STOP" := by
  decide

/-- **C4 (amended).** `should_copy_trade` returns `false` exactly when one
of the following holds: the trade is a market or pending buy and
`copy_buy` is false; a market or pending sell and `copy_sell` is false; an
allow-list is configured and the symbol is absent from it; a block-list is
configured and the symbol is present in it.  In particular a symbol on
both a configured allow-list and a configured block-list is rejected. -/
theorem should_copy_trade_false_iff :
    (∀ (s : Settings) (tt : String) (sym : List Char),
      should_copy_trade s tt sym = false ↔
        (((tt = "BUY" ∨ tt = "BUY_LIMIT" ∨ tt = "BUY_STOP") ∧ s.copy_buy = false) ∨
         ((tt = "SELL" ∨ tt = "SELL_LIMIT" ∨ tt = "SELL_STOP") ∧ s.copy_sell = false) ∨
         (s.allowed_symbols ≠ [] ∧ sym ∉ split_strip s.allowed_symbols) ∨
         (s.blocked_symbols ≠ [] ∧ sym ∈ split_strip s.blocked_symbols))) ∧
    (∀ (s : Settings) (tt : String) (sym : List Char),
      s.blocked_symbols ≠ [] → sym ∈ split_strip s.blocked_symbols →
        should_copy_trade s tt sym = false) := by
  have main : ∀ (s : Settings) (tt : String) (sym : List Char),
      should_copy_trade s tt sym = false ↔
        (((tt = "BUY" ∨ tt = "BUY_LIMIT" ∨ tt = "BUY_STOP") ∧ s.copy_buy = false) ∨
         ((tt = "SELL" ∨ tt = "SELL_LIMIT" ∨ tt = "SELL_STOP") ∧ s.copy_sell = false) ∨
         (s.allowed_symbols ≠ [] ∧ sym ∉ split_strip s.allowed_symbols) ∨
         (s.blocked_symbols ≠ [] ∧ sym ∈ split_strip s.blocked_symbols)) := by
    intro s tt sym
    unfold should_copy_trade
    split_ifs with h1 h2 h3 h4 <;>
      simp only [List.mem_cons, List.not_mem_nil, or_false] at * <;>
      simp [Bool.not_eq_false] at * <;> tauto
  exact ⟨main, fun s tt sym hne hmem =>
    (main s tt sym).2 (Or.inr (Or.inr (Or.inr ⟨hne, hmem⟩)))⟩

/-- Settings with `"XAUUSD"` on both the allow-list and the block-list. -/
def exSettingsBlk : Settings :=
  { exSettingsC5 with
    allowed_symbols := ("XAUUSD".data),
    blocked_symbols := ("XAUUSD".data) }

/-- Witness for C4 (amended): a symbol on both configured lists is
rejected. -/
theorem should_copy_trade_false_iff_witness :
    should_copy_trade exSettingsBlk "BUY" "XAUUSD".data = false :=
  should_copy_trade_false_iff.2 exSettingsBlk "BUY" "XAUUSD".data
    (by decide) (by decide)

/-- Settings with `copy_buy` disabled and no symbol lists, for the C4
counterexample. -/
def exSettingsC4 : Settings :=
  { exSettingsC5 with copy_buy := false }

/-- Counterexample to C4 as stated: a pending buy (`BUY_LIMIT`) with
`copy_buy` disabled is rejected by the code, yet none of the claim's four
conditions (market buy with `copy_buy` off; market/pending sell with
`copy_sell` off; configured allow-list missing the symbol; symbol present
in the block-list) holds for it. -/
theorem should_copy_trade_market_only_cex :
    should_copy_trade exSettingsC4 "BUY_LIMIT" "EURUSD".data = false ∧
    ¬((("BUY_LIMIT" : String) = "BUY" ∧ exSettingsC4.copy_buy = false) ∨
      (("BUY_LIMIT" : String) ∈ (["SELL", "SELL_LIMIT", "SELL_STOP"] : List String) ∧
        exSettingsC4.copy_sell = false) ∨
      (exSettingsC4.allowed_symbols ≠ [] ∧
        "EURUSD".data ∉ split_strip exSettingsC4.allowed_symbols) ∨
      (exSettingsC4.blocked_symbols ≠ [] ∧
        "EURUSD".data ∈ split_strip exSettingsC4.blocked_symbols)) := by
  constructor
  · simp [should_copy_trade, exSettingsC4, exSettingsC5, String.reduceEq]
  · simp [exSettingsC4, exSettingsC5, String.reduceEq]

/-! ## Decimal rendering and parsing (Python `f"{int}"` and `int(str)`) -/

/-- Decimal digits of a natural number, most significant first (Python
`str` of a nonnegative int). -/
def natDigits (n : Nat) : List Char :=
  if h : n < 10 then [Char.ofNat (48 + n)]
  else natDigits (n / 10) ++ [Char.ofNat (48 + n % 10)]
decreasing_by exact Nat.div_lt_self (by omega) (by omega)

/-- Python `str` of an int: a minus sign for negatives, then digits. -/
def intDigits (n : Int) : List Char :=
  if n < 0 then '-' :: natDigits (-n).toNat else natDigits n.toNat

/-- Decimal digit test, by code point (`'0'` is 48, `'9'` is 57). -/
def isDigitCh (c : Char) : Bool := 48 ≤ c.toNat && c.toNat ≤ 57

/-- All characters are decimal digits. -/
def allDigits (l : List Char) : Bool := l.all isDigitCh

/-- Numeric value of a digit string, most significant first. -/
def digitsVal (l : List Char) : Nat :=
  l.foldl (fun a c => a * 10 + (c.toNat - 48)) 0

/-- Python `int(str)` as applied to the resolver's comment slices: an
optional sign followed by a nonempty run of decimal digits yields the
integer, anything else raises `ValueError` (`none` here).  Python's
tolerance for surrounding whitespace and underscore grouping is not
modelled; no claim depends on it. -/
def pyInt (l : List Char) : Option Int :=
  match l with
  | [] => none
  | c :: rest =>
    if c = '-' then
      if allDigits rest && !rest.isEmpty then some (-(digitsVal rest : Int)) else none
    else if c = '+' then
      if allDigits rest && !rest.isEmpty then some ((digitsVal rest : Int)) else none
    else if allDigits (c :: rest) then some ((digitsVal (c :: rest) : Int)) else none

/-! ## Python string-search primitives used by the resolver -/

/-- Does `pat` occur at the head of `l`? -/
def headMatch : List Char → List Char → Bool
  | [], _ => true
  | _ :: _, [] => false
  | p :: ps, c :: cs => p == c && headMatch ps cs

/-- Index of the first occurrence of `pat` in `l`: Python `str.find` for a
substring pattern, with `none` for Python's `-1`. -/
def findSub : List Char → List Char → Option Nat
  | [], pat => if headMatch pat [] then some 0 else none
  | c :: cs, pat =>
    if headMatch pat (c :: cs) then some 0
    else (findSub cs pat).map (· + 1)

/-- Python `pat in s` (substring containment). -/
def containsSub (l pat : List Char) : Bool := (findSub l pat).isSome

/-- Index of the first occurrence of character `c` in `l`. -/
def findCharIdx : List Char → Char → Option Nat
  | [], _ => none
  | x :: xs, c => if x == c then some 0 else (findCharIdx xs c).map (· + 1)

/-- Python `str.find(c, start)`: first occurrence of `c` at or after
index `start`, with `none` for Python's `-1`. -/
def findCharFrom (l : List Char) (c : Char) (start : Nat) : Option Nat :=
  (findCharIdx (l.drop start) c).map (start + ·)

/-- Python slice `l[a:b]`. -/
def sliceCh (l : List Char) (a b : Nat) : List Char := (l.drop a).take (b - a)

/-! ## Correlation tag: writer (lines 188-191) and reader (lines 126-144) -/

/-- The `"TKT="` marker scanned for in receiver comments. -/
def tktMarker : List Char := ['T', 'K', 'T', '=']

/-- The `"[OPPOSITE]"` marker appended for opposite trading. -/
def oppMarker : List Char := ['[', 'O', 'P', 'P', 'O', 'S', 'I', 'T', 'E', ']']

/-- The comment the executor attaches to a copied trade
(`trade_copier.py` lines 188-191): `"[TKT=<provider_ticket>]"` plus
`"[OPPOSITE]"` when opposite trading is enabled. -/
def build_comment (provider_ticket : Int) (opposite : Bool) : List Char :=
  '[' :: tktMarker ++ intDigits provider_ticket ++ ']' ::
    (if opposite then oppMarker else [])

/-- One receiver comment through the Correlation Resolver scan
(`trade_copier.py` lines 127-135 and 137-144, identical logic): locate
`"TKT="`, then the next `']'` after it, and parse the slice in between
with `int`.  `.ok none`: no tag recovered (the trade is skipped);
`.ok (some t)`: provider ticket `t` recovered; `.error ()`: the
`ValueError` that `int(...)` raises on a non-numeric slice, which
propagates out of the resolver loop. -/
def extract_ticket (comment : List Char) : Except Unit (Option Int) :=
  match findSub comment tktMarker with
  | none => .ok none
  | some i =>
    let start := i + 4
    match findCharFrom comment ']' start with
    | none => .ok none
    | some stop =>
      if start < stop then
        match pyInt (sliceCh comment start stop) with
        | some t => .ok (some t)
        | none => .error ()
      else .ok none

/-- Modelled from the spec: the Correlation Resolver's recovery of the
opposite flag, which `src` does not implement (the resolver in
`trade_copier.py` extracts only the ticket).  Following §4.1 and §8 of the
spec ("plus `[OPPOSITE]` when `opposite` is true", "recovers ticket `t`
and the opposite flag exactly"), the flag is read back as the presence of
the `"[OPPOSITE]"` marker in the comment. -/
def read_opposite_flag (comment : List Char) : Bool :=
  containsSub comment oppMarker

/-! ## Digit-string lemmas -/

theorem isDigitCh_ofNat {m : Nat} (hm : m < 10) :
    isDigitCh (Char.ofNat (48 + m)) = true := by
  interval_cases m <;> decide

theorem toNat_ofNat_digit {m : Nat} (hm : m < 10) :
    (Char.ofNat (48 + m)).toNat = 48 + m := by
  interval_cases m <;> decide

theorem natDigits_ne_nil (n : Nat) : natDigits n ≠ [] := by
  rw [natDigits]
  split_ifs <;> simp

theorem natDigits_allDigits (n : Nat) : allDigits (natDigits n) = true := by
  induction n using Nat.strong_induction_on with
  | _ n ih =>
    rw [natDigits]
    split_ifs with h
    · simp [allDigits, isDigitCh_ofNat h]
    · have hlt : n / 10 < n := Nat.div_lt_self (by omega) (by omega)
      have hmod : n % 10 < 10 := Nat.mod_lt _ (by omega)
      have hrec := ih _ hlt
      simp only [allDigits, List.all_append, List.all_cons, List.all_nil,
        Bool.and_true, Bool.and_eq_true] at hrec ⊢
      exact ⟨hrec, isDigitCh_ofNat hmod⟩

theorem digitsVal_append_digit (l : List Char) (c : Char) :
    digitsVal (l ++ [c]) = digitsVal l * 10 + (c.toNat - 48) := by
  simp [digitsVal, List.foldl_append]

theorem digitsVal_natDigits (n : Nat) : digitsVal (natDigits n) = n := by
  induction n using Nat.strong_induction_on with
  | _ n ih =>
    rw [natDigits]
    split_ifs with h
    · simp [digitsVal, toNat_ofNat_digit h]
    · have hlt : n / 10 < n := Nat.div_lt_self (by omega) (by omega)
      have hmod : n % 10 < 10 := Nat.mod_lt _ (by omega)
      rw [digitsVal_append_digit, ih _ hlt, toNat_ofNat_digit hmod]
      omega

theorem pyInt_natDigits (n : Nat) : pyInt (natDigits n) = some (n : Int) := by
  cases hd : natDigits n with
  | nil => exact absurd hd (natDigits_ne_nil n)
  | cons c cs =>
    have hall : allDigits (c :: cs) = true := hd ▸ natDigits_allDigits n
    have hval : digitsVal (c :: cs) = n := hd ▸ digitsVal_natDigits n
    have hc : isDigitCh c = true := by
      simp only [allDigits, List.all_cons, Bool.and_eq_true] at hall
      exact hall.1
    have hcm : ¬ c = '-' := fun e => by subst e; simp [isDigitCh] at hc
    have hcp : ¬ c = '+' := fun e => by subst e; simp [isDigitCh] at hc
    simp only [pyInt]
    rw [if_neg hcm, if_neg hcp, if_pos hall, hval]

theorem pyInt_intDigits (t : Int) : pyInt (intDigits t) = some t := by
  unfold intDigits
  split_ifs with h
  · have h1 : allDigits (natDigits (-t).toNat) = true := natDigits_allDigits _
    have h2 : (natDigits (-t).toNat).isEmpty = false := by
      cases hh : natDigits (-t).toNat with
      | nil => exact absurd hh (natDigits_ne_nil _)
      | cons c cs => rfl
    simp only [pyInt, if_pos rfl, h1, h2, Bool.not_false, Bool.and_self, if_pos,
      digitsVal_natDigits]
    congr 1
    omega
  · rw [pyInt_natDigits]
    congr 1
    omega

/-! ## Substring-search lemmas -/

theorem headMatch_append (xs ys : List Char) : headMatch xs (xs ++ ys) = true := by
  induction xs with
  | nil => rfl
  | cons x xs ih => simp [headMatch, ih]

theorem findSub_isSome_of_headMatch (hay pat : List Char)
    (h : headMatch pat hay = true) : (findSub hay pat).isSome = true := by
  cases hay with
  | nil => simp [findSub, h]
  | cons c cs => simp [findSub, h]

theorem findSub_isSome_append (pre pat post : List Char) :
    (findSub (pre ++ (pat ++ post)) pat).isSome = true := by
  induction pre with
  | nil => exact findSub_isSome_of_headMatch _ _ (headMatch_append _ _)
  | cons c cs ih =>
    simp only [List.cons_append, findSub]
    split_ifs with h
    · rfl
    · simpa using ih

theorem mem_of_headMatch {pat l : List Char} (h : headMatch pat l = true) :
    ∀ c ∈ pat, c ∈ l := by
  induction pat generalizing l with
  | nil => simp
  | cons p ps ih =>
    cases l with
    | nil => simp [headMatch] at h
    | cons x xs =>
      simp only [headMatch, Bool.and_eq_true, beq_iff_eq] at h
      intro c hc
      rcases List.mem_cons.mp hc with rfl | hc
      · exact h.1 ▸ List.mem_cons_self _ _
      · exact List.mem_cons_of_mem _ (ih h.2 c hc)

theorem mem_of_containsSub {hay pat : List Char} (h : containsSub hay pat = true) :
    ∀ c ∈ pat, c ∈ hay := by
  induction hay with
  | nil =>
    intro c hc
    unfold containsSub findSub at h
    split_ifs at h with hm
    · cases pat with
      | nil => simp at hc
      | cons p ps => simp [headMatch] at hm
    · simp at h
  | cons x xs ih =>
    intro c hc
    unfold containsSub findSub at h
    split_ifs at h with hm
    · exact mem_of_headMatch hm c hc
    · have hx : containsSub xs pat = true := by
        simpa [containsSub, Option.isSome_map] using h
      exact List.mem_cons_of_mem _ (ih hx c hc)

theorem findCharIdx_append (l : List Char) (c : Char) (tail : List Char)
    (h : ∀ x ∈ l, x ≠ c) :
    findCharIdx (l ++ c :: tail) c = some l.length := by
  induction l with
  | nil => simp [findCharIdx]
  | cons x xs ih =>
    have hx : (x == c) = false := by
      simpa using h x (List.mem_cons_self x xs)
    simp [findCharIdx, hx, ih (fun y hy => h y (List.mem_cons_of_mem _ hy))]

/-! ## Character inventory of the built comment -/

theorem intDigits_ne_nil (t : Int) : intDigits t ≠ [] := by
  unfold intDigits
  split_ifs
  · simp
  · exact natDigits_ne_nil _

theorem intDigits_chars (t : Int) :
    ∀ x ∈ intDigits t, x = '-' ∨ isDigitCh x = true := by
  unfold intDigits
  split_ifs with h <;> intro x hx
  · rcases List.mem_cons.mp hx with rfl | hx
    · exact Or.inl rfl
    · refine Or.inr ?_
      have hall := natDigits_allDigits (-t).toNat
      simp only [allDigits, List.all_eq_true] at hall
      exact hall x hx
  · refine Or.inr ?_
    have hall := natDigits_allDigits t.toNat
    simp only [allDigits, List.all_eq_true] at hall
    exact hall x hx

theorem intDigits_no_bracket (t : Int) : ∀ x ∈ intDigits t, x ≠ ']' := by
  intro x hx
  rcases intDigits_chars t x hx with rfl | hd
  · decide
  · intro e
    subst e
    simp [isDigitCh] at hd

/-! ## Tag round-trip -/

theorem build_comment_eq (t : Int) (opp : Bool) :
    build_comment t opp =
      '[' :: 'T' :: 'K' :: 'T' :: '=' :: (intDigits t ++ ']' ::
        (if opp then oppMarker else [])) := by
  simp [build_comment, tktMarker]

theorem findSub_build_comment (t : Int) (opp : Bool) :
    findSub (build_comment t opp) tktMarker = some 1 := by
  rw [build_comment_eq]
  rfl

theorem drop_build_comment (t : Int) (opp : Bool) :
    (build_comment t opp).drop 5 =
      intDigits t ++ ']' :: (if opp then oppMarker else []) := by
  rw [build_comment_eq]
  rfl

theorem findCharFrom_build_comment (t : Int) (opp : Bool) :
    findCharFrom (build_comment t opp) ']' 5 = some (5 + (intDigits t).length) := by
  unfold findCharFrom
  rw [drop_build_comment, findCharIdx_append _ _ _ (intDigits_no_bracket t)]
  rfl

theorem sliceCh_build_comment (t : Int) (opp : Bool) :
    sliceCh (build_comment t opp) 5 (5 + (intDigits t).length) = intDigits t := by
  unfold sliceCh
  rw [drop_build_comment]
  have h5 : 5 + (intDigits t).length - 5 = (intDigits t).length := by omega
  rw [h5]
  exact List.take_left _ _

theorem extract_ticket_build (t : Int) (opp : Bool) :
    extract_ticket (build_comment t opp) = .ok (some t) := by
  unfold extract_ticket
  rw [findSub_build_comment]
  simp only []
  rw [show (1 : Nat) + 4 = 5 from rfl, findCharFrom_build_comment]
  simp only []
  rw [if_pos (show 5 < 5 + (intDigits t).length by
    have := List.length_pos.mpr (intDigits_ne_nil t); omega)]
  rw [sliceCh_build_comment, pyInt_intDigits]

theorem read_opposite_build (t : Int) (opp : Bool) :
    read_opposite_flag (build_comment t opp) = opp := by
  cases opp with
  | true =>
    have hb : build_comment t true =
        ('[' :: tktMarker ++ intDigits t ++ [']']) ++ (oppMarker ++ []) := by
      simp [build_comment]
    unfold read_opposite_flag containsSub
    rw [hb]
    exact findSub_isSome_append _ _ _
  | false =>
    unfold read_opposite_flag
    cases hc : containsSub (build_comment t false) oppMarker with
    | false => rfl
    | true =>
      exfalso
      have hO : 'O' ∈ build_comment t false :=
        mem_of_containsSub hc 'O' (by simp [oppMarker])
      rw [build_comment_eq] at hO
      simp only [if_neg (by simp : ¬ (false = true)), List.mem_cons,
        List.mem_append, List.mem_singleton, List.not_mem_nil, or_false] at hO
      rcases hO with h | h | h | h | h | h
      · exact absurd h (by decide)
      · exact absurd h (by decide)
      · exact absurd h (by decide)
      · exact absurd h (by decide)
      · exact absurd h (by decide)
      · rcases h with h | h
        · rcases intDigits_chars t 'O' h with h2 | h2
          · exact absurd h2 (by decide)
          · simp [isDigitCh] at h2
        · exact absurd h (by decide)

/-- **C2.** For every provider ticket `t` and opposite flag, the comment
the executor builds (`"[TKT=<t>]"` plus `"[OPPOSITE]"` when opposite) is
round-trip parseable: the Correlation Resolver's scan recovers exactly
ticket `t`, and the opposite flag is recovered exactly (the latter against
the spec-modelled flag reader, since `src` never reads the flag back). -/
theorem build_comment_roundtrip (t : Int) (opp : Bool) :
    extract_ticket (build_comment t opp) = .ok (some t) ∧
    read_opposite_flag (build_comment t opp) = opp :=
  ⟨extract_ticket_build t opp, read_opposite_build t opp⟩

/-! ## Trade data model -/

/-- A provider-side trade as consumed by `copy_trades`: the keys accessed
on `trade` are `ticket`, `type`, `symbol`, `volume`, `sl`, `tp`, and
`price_open` (the latter read with `trade.get('price_open', 0)`, hence
optional). -/
structure PTrade where
  ticket : Int
  type : String
  symbol : List Char
  volume : Rat
  sl : Rat
  tp : Rat
  price_open : Option Rat
deriving DecidableEq

/-- A receiver-side position or working order as consumed by the resolver
and the orphan pass: `ticket`, `sl`, `tp`, the `comment` carrying the
correlation tag, `price_open` present or absent (`'price_open' in trade`),
and `price_current` as read by `trade.get('price_current')` (`none` when
the key is absent; Python also treats a present `0.0` as falsy). -/
structure RTrade where
  ticket : Int
  sl : Rat
  tp : Rat
  comment : List Char
  price_open : Option Rat
  price_current : Option Rat
deriving DecidableEq

/-- The slice of an account row the engine reads: `id`, `broker`,
`balance` (and `name`, used only in log/event strings). -/
structure Account where
  id : Int
  broker : String
  balance : Rat

/-- A row of the symbol-mapping table (`db.get_symbol_mappings()`), with
an empty `broker_name` acting as a wildcard. -/
structure SymbolMapping where
  provider_symbol : List Char
  receiver_symbol : List Char
  broker_name : String

/-- `TradeCopier.map_symbol` (lines 21-35): first table entry matching the
provider symbol whose broker matches the receiver broker or is empty wins;
otherwise fall back to `symbol_prefix + symbol + symbol_suffix`.  The
`provider_broker` argument is accepted and ignored, as in the source. -/
def map_symbol (s : Settings) (mappings : List SymbolMapping)
    (symbol : List Char) (provider_broker receiver_broker : String) : List Char :=
  match mappings with
  | [] => s.sym_pre ++ symbol ++ s.sym_suf
  | mp :: rest =>
    if mp.provider_symbol = symbol ∧
        (mp.broker_name = receiver_broker ∨ mp.broker_name = "") then
      mp.receiver_symbol
    else map_symbol s rest symbol provider_broker receiver_broker

/-! ## Correlation Resolver (lines 126-144) -/

/-- Python dict assignment `receiver_trades_map[provider_ticket] = trade`:
replace the binding if the key is present, else append it. -/
def dinsert (k : Int) (v : RTrade) : List (Int × RTrade) → List (Int × RTrade)
  | [] => [(k, v)]
  | (k', v') :: rest =>
    if k' = k then (k, v) :: rest else (k', v') :: dinsert k v rest

/-- Dict lookup (first binding; keys are unique for maps built by
`dinsert` from the empty map). -/
def dlookup (k : Int) : List (Int × RTrade) → Option RTrade
  | [] => none
  | (k', v) :: rest => if k' = k then some v else dlookup k rest

/-- One resolver loop (lines 127-135, and identically 137-144): scan the
trades in order, inserting every recovered ticket; a `ValueError` from
`int(...)` propagates and aborts the whole scan (it is caught only by the
`try` wrapping all of `copy_trades`). -/
def scan_trades (trades : List RTrade) (m : List (Int × RTrade)) :
    Except Unit (List (Int × RTrade)) :=
  match trades with
  | [] => .ok m
  | tr :: rest =>
    match extract_ticket tr.comment with
    | .error e => .error e
    | .ok none => scan_trades rest m
    | .ok (some pt) => scan_trades rest (dinsert pt tr m)

/-- The Correlation Resolver (lines 126-144): positions are scanned first,
then working orders, into one `provider_ticket → receiver trade` map (so
an order carrying the same tag as a position overwrites it). -/
def build_map (positions orders : List RTrade) :
    Except Unit (List (Int × RTrade)) :=
  match scan_trades positions [] with
  | .error e => .error e
  | .ok m => scan_trades orders m

/-! ## Reconciliation plan (the venue calls `copy_trades` decides on) -/

/-- A venue call the engine decides to attempt for the receiver:
`mt5.place_trade`, `mt5.place_pending_order`, `mt5.modify_position`,
`mt5.close_position`, or `mt5.delete_order`. -/
inductive Action where
  | openMarket (trade_type : String) (symbol : List Char) (volume sl tp : Rat)
      (comment : List Char) (magic : Int)
  | openPending (trade_type : String) (symbol : List Char) (volume : Rat)
      (price : Rat) (sl tp : Rat) (comment : List Char) (magic : Int)
  | modifyStops (receiver_ticket : Int) (sl tp : Rat)
  | closePos (receiver_ticket : Int)
  | deleteOrder (receiver_ticket : Int)
deriving DecidableEq

/-- Python truthiness of `trade.get('price_current')`: both a missing key
and a present `0.0` are falsy. -/
def truthy : Option Rat → Bool
  | none => false
  | some x => x != 0

/-- The discriminator of line 276:
`'price_open' in receiver_trade and receiver_trade.get('price_current')`. -/
def is_position_like (tr : RTrade) : Bool :=
  tr.price_open.isSome && truthy tr.price_current

/-- `TradeCopier.close_missing_trades` (lines 266-295): for every mapped
provider ticket absent from the provider snapshot, attempt to close the
matched receiver trade if it looks like a position, else delete it as a
pending order. -/
def close_missing_trades (provider_trades : List PTrade)
    (m : List (Int × RTrade)) : List Action :=
  m.flatMap (fun pr =>
    if pr.1 ∈ provider_trades.map PTrade.ticket then []
    else if is_position_like pr.2 then [.closePos pr.2.ticket]
    else [.deleteOrder pr.2.ticket])

/-- The decision `copy_trades` makes for one provider trade
(lines 147-221), as the list of venue calls attempted for it: an
already-mapped ticket gets at most a stop modification; an unmapped one is
filtered, then sized, symbol-mapped, direction-adjusted, tagged, and
opened as a market or pending order. -/
def process_provider_trade (s : Settings) (mappings : List SymbolMapping)
    (provider_acct receiver_acct : Account) (m : List (Int × RTrade))
    (tr : PTrade) : List Action :=
  match dlookup tr.ticket m with
  | some existing =>
    if existing.sl ≠ tr.sl ∨ existing.tp ≠ tr.tp then
      [.modifyStops existing.ticket tr.sl tr.tp]
    else []
  | none =>
    if should_copy_trade s tr.type tr.symbol = false then []
    else
      let mapped := map_symbol s mappings tr.symbol provider_acct.broker receiver_acct.broker
      let volume := calculate_lot_size s tr.volume provider_acct.balance receiver_acct.balance
      let trade_type := if s.opposite_trades then get_opposite_trade_type tr.type else tr.type
      let comment := build_comment tr.ticket s.opposite_trades
      let magic := s.magic_number.getD provider_acct.id
      if trade_type = "BUY" ∨ trade_type = "SELL" then
        [.openMarket trade_type mapped volume tr.sl tr.tp comment magic]
      else
        [.openPending trade_type mapped volume (tr.price_open.getD 0) tr.sl tr.tp comment magic]

/-- The per-pair copy cycle `copy_trades` (lines 110-256) at the decision
level: resolve the correlation map from the receiver snapshot, process
each provider trade in order, then run the orphan pass exactly when
`close_on_provider_close` is enabled.  A resolver `ValueError` aborts the
cycle for the pair (the enclosing `try` logs it and emits an error
event). -/
def copy_cycle (s : Settings) (mappings : List SymbolMapping)
    (provider_acct receiver_acct : Account)
    (positions orders : List RTrade) (provider_trades : List PTrade) :
    Except Unit (List Action) :=
  match build_map positions orders with
  | .error e => .error e
  | .ok m =>
    .ok (provider_trades.flatMap
        (process_provider_trade s mappings provider_acct receiver_acct m) ++
      (if s.close_on_provider_close then close_missing_trades provider_trades m
       else []))

/-- Does an action close or delete a receiver trade? -/
def isCloseOrDelete : Action → Bool
  | .closePos _ => true
  | .deleteOrder _ => true
  | _ => false

/-- Does an action open a new receiver trade? -/
def isOpenAct : Action → Bool
  | .openMarket .. => true
  | .openPending .. => true
  | _ => false

/-- The receiver ticket an action operates on, for actions that target an
existing receiver trade. -/
def targetTicket : Action → Option Int
  | .modifyStops tk _ _ => some tk
  | .closePos tk => some tk
  | .deleteOrder tk => some tk
  | _ => none

/-! ## Resolver and planner lemmas -/

theorem dinsert_mem {pr : Int × RTrade} {k : Int} {v : RTrade} :
    ∀ {m : List (Int × RTrade)}, pr ∈ dinsert k v m → pr = (k, v) ∨ pr ∈ m := by
  intro m
  induction m with
  | nil => simp [dinsert]
  | cons hd rest ih =>
    obtain ⟨k', v'⟩ := hd
    unfold dinsert
    split_ifs with hk
    · intro h
      rcases List.mem_cons.mp h with rfl | h
      · exact Or.inl rfl
      · exact Or.inr (List.mem_cons_of_mem _ h)
    · intro h
      rcases List.mem_cons.mp h with rfl | h
      · exact Or.inr (List.mem_cons_self _ _)
      · rcases ih h with h | h
        · exact Or.inl h
        · exact Or.inr (List.mem_cons_of_mem _ h)

theorem dlookup_mem {k : Int} {v : RTrade} :
    ∀ {m : List (Int × RTrade)}, dlookup k m = some v → (k, v) ∈ m := by
  intro m
  induction m with
  | nil => simp [dlookup]
  | cons hd rest ih =>
    obtain ⟨k', v'⟩ := hd
    unfold dlookup
    split_ifs with hk
    · intro h
      subst hk
      simp at h
      subst h
      exact List.mem_cons_self _ _
    · intro h
      exact List.mem_cons_of_mem _ (ih h)

theorem scan_trades_mem {trades : List RTrade} :
    ∀ {m0 m : List (Int × RTrade)}, scan_trades trades m0 = .ok m →
      ∀ pr ∈ m, pr ∈ m0 ∨
        (pr.2 ∈ trades ∧ extract_ticket pr.2.comment = .ok (some pr.1)) := by
  induction trades with
  | nil =>
    intro m0 m h pr hpr
    simp only [scan_trades, Except.ok.injEq] at h
    exact Or.inl (h ▸ hpr)
  | cons tr rest ih =>
    intro m0 m h pr hpr
    unfold scan_trades at h
    cases hx : extract_ticket tr.comment with
    | error e => rw [hx] at h; exact absurd h (by simp)
    | ok o =>
      cases o with
      | none =>
        rw [hx] at h
        rcases ih h pr hpr with h1 | ⟨h1, h2⟩
        · exact Or.inl h1
        · exact Or.inr ⟨List.mem_cons_of_mem _ h1, h2⟩
      | some pt =>
        rw [hx] at h
        rcases ih h pr hpr with h1 | ⟨h1, h2⟩
        · rcases dinsert_mem h1 with rfl | h1
          · exact Or.inr ⟨List.mem_cons_self _ _, hx⟩
          · exact Or.inl h1
        · exact Or.inr ⟨List.mem_cons_of_mem _ h1, h2⟩

theorem build_map_mem {positions orders : List RTrade}
    {m : List (Int × RTrade)} (h : build_map positions orders = .ok m) :
    ∀ pr ∈ m, (pr.2 ∈ positions ∨ pr.2 ∈ orders) ∧
      extract_ticket pr.2.comment = .ok (some pr.1) := by
  intro pr hpr
  unfold build_map at h
  cases h1 : scan_trades positions [] with
  | error e => rw [h1] at h; exact absurd h (by simp)
  | ok m1 =>
    rw [h1] at h
    rcases scan_trades_mem h pr hpr with h2 | ⟨h2, h3⟩
    · rcases scan_trades_mem h1 pr h2 with h4 | ⟨h4, h5⟩
      · simp at h4
      · exact ⟨Or.inl h4, h5⟩
    · exact ⟨Or.inr h2, h3⟩

theorem process_provider_trade_no_close (s : Settings)
    (mappings : List SymbolMapping) (pa ra : Account)
    (m : List (Int × RTrade)) (tr : PTrade) :
    ∀ a ∈ process_provider_trade s mappings pa ra m tr,
      isCloseOrDelete a = false := by
  intro a ha
  unfold process_provider_trade at ha
  cases hl : dlookup tr.ticket m with
  | some existing =>
    rw [hl] at ha
    simp only at ha
    split_ifs at ha
    · simp at ha; subst ha; rfl
    · simp at ha
  | none =>
    rw [hl] at ha
    simp only at ha
    split_ifs at ha <;> simp at ha <;> subst ha <;> rfl

theorem close_missing_trades_mem (P : List PTrade)
    (m : List (Int × RTrade)) (a : Action) :
    a ∈ close_missing_trades P m ↔
      ∃ pr ∈ m, pr.1 ∉ P.map PTrade.ticket ∧
        a = (if is_position_like pr.2 then Action.closePos pr.2.ticket
             else Action.deleteOrder pr.2.ticket) := by
  unfold close_missing_trades
  rw [List.mem_flatMap]
  refine exists_congr fun pr => and_congr_right fun _ => ?_
  by_cases h1 : pr.1 ∈ P.map PTrade.ticket
  · simp [h1]
  · by_cases h2 : is_position_like pr.2 = true
    · simp [h1, h2]
    · simp [h1, h2]

theorem close_missing_trades_isCloseOrDelete {P : List PTrade}
    {m : List (Int × RTrade)} {a : Action}
    (h : a ∈ close_missing_trades P m) : isCloseOrDelete a = true := by
  rcases (close_missing_trades_mem P m a).mp h with ⟨pr, _, _, rfl⟩
  split_ifs <;> rfl

theorem plan_targets_in_map (s : Settings) (mappings : List SymbolMapping)
    (pa ra : Account) (positions orders : List RTrade) (P : List PTrade)
    (m : List (Int × RTrade)) (plan : List Action)
    (hmap : build_map positions orders = .ok m)
    (hplan : copy_cycle s mappings pa ra positions orders P = .ok plan) :
    ∀ a ∈ plan, ∀ tk, targetTicket a = some tk →
      ∃ pr ∈ m, pr.2.ticket = tk := by
  intro a ha tk htk
  unfold copy_cycle at hplan
  rw [hmap] at hplan
  simp only [Except.ok.injEq] at hplan
  subst hplan
  rcases List.mem_append.mp ha with ha | ha
  · obtain ⟨tr, htr, ha⟩ := List.mem_flatMap.mp ha
    unfold process_provider_trade at ha
    cases hl : dlookup tr.ticket m with
    | some existing =>
      rw [hl] at ha
      simp only at ha
      split_ifs at ha
      · simp at ha
        subst ha
        simp only [targetTicket, Option.some.injEq] at htk
        exact ⟨(tr.ticket, existing), dlookup_mem hl, htk⟩
      · simp at ha
    | none =>
      rw [hl] at ha
      simp only at ha
      split_ifs at ha <;> simp at ha <;> subst ha <;> simp [targetTicket] at htk
  · split_ifs at ha
    · rcases (close_missing_trades_mem P m a).mp ha with ⟨pr, hpr, _, rfl⟩
      refine ⟨pr, hpr, ?_⟩
      split_ifs at htk <;> simpa [targetTicket] using htk
    · simp at ha

/-! ## Claim theorems on the resolver and planner -/

/-- **C3.** With `close_on_provider_close` disabled, a copy cycle attempts
no close or delete at all; with it enabled, the close/delete attempts of
the cycle are exactly one per correlation-map entry whose provider ticket
is absent from the provider snapshot — a `close_position` when the mapped
receiver trade is classified as a position (present `price_open` and
truthy `price_current`), a `delete_order` when it is classified as a
working order. -/
theorem orphan_pass_charact (s : Settings) (mappings : List SymbolMapping)
    (pa ra : Account) (positions orders : List RTrade) (P : List PTrade)
    (m : List (Int × RTrade)) (plan : List Action)
    (hmap : build_map positions orders = .ok m)
    (hplan : copy_cycle s mappings pa ra positions orders P = .ok plan) :
    (s.close_on_provider_close = false →
      ∀ a ∈ plan, isCloseOrDelete a = false) ∧
    (s.close_on_provider_close = true →
      ∀ a : Action, (a ∈ plan ∧ isCloseOrDelete a = true) ↔
        ∃ pr ∈ m, pr.1 ∉ P.map PTrade.ticket ∧
          a = (if is_position_like pr.2 then Action.closePos pr.2.ticket
               else Action.deleteOrder pr.2.ticket)) := by
  unfold copy_cycle at hplan
  rw [hmap] at hplan
  simp only [Except.ok.injEq] at hplan
  subst hplan
  constructor
  · intro hoff a ha
    simp only [hoff, Bool.false_eq_true, if_false, List.append_nil] at ha
    obtain ⟨tr, htr, ha⟩ := List.mem_flatMap.mp ha
    exact process_provider_trade_no_close s mappings pa ra m tr a ha
  · intro hon a
    constructor
    · rintro ⟨ha, hcd⟩
      simp only [hon, if_true] at ha
      rcases List.mem_append.mp ha with ha2 | ha2
      · obtain ⟨tr, htr, ha3⟩ := List.mem_flatMap.mp ha2
        have hf := process_provider_trade_no_close s mappings pa ra m tr a ha3
        rw [hf] at hcd
        cases hcd
      · exact (close_missing_trades_mem P m a).mp ha2
    · intro hex
      have ha : a ∈ close_missing_trades P m :=
        (close_missing_trades_mem P m a).mpr hex
      refine ⟨?_, close_missing_trades_isCloseOrDelete ha⟩
      rw [hon, if_pos rfl]
      exact List.mem_append.mpr (Or.inr ha)

/-- Account stub used by concrete scenarios. -/
def exAcct : Account := { id := 1, broker := "", balance := 10000 }

/-- A tagged receiver position (`[TKT=7]`, live price) for witnesses. -/
def exRTpos : RTrade :=
  { ticket := 9, sl := 0, tp := 0, comment := "[TKT=7]".data,
    price_open := some 1, price_current := some 2 }

/-- Witness for C3: one mapped ticket (7) absent from an empty provider
snapshot yields exactly the one close of receiver ticket 9. -/
theorem orphan_pass_charact_witness :
    (exSettingsC5.close_on_provider_close = false →
      ∀ a ∈ [Action.closePos 9], isCloseOrDelete a = false) ∧
    (exSettingsC5.close_on_provider_close = true →
      ∀ a : Action, (a ∈ [Action.closePos 9] ∧ isCloseOrDelete a = true) ↔
        ∃ pr ∈ [((7 : Int), exRTpos)], pr.1 ∉ ([] : List PTrade).map PTrade.ticket ∧
          a = (if is_position_like pr.2 then Action.closePos pr.2.ticket
               else Action.deleteOrder pr.2.ticket)) :=
  orphan_pass_charact exSettingsC5 [] exAcct exAcct [exRTpos] [] []
    [((7 : Int), exRTpos)] [Action.closePos 9] rfl rfl

/-- **C6.** For a provider trade whose ticket is already in the
correlation map, the cycle emits exactly one `modify_position` carrying
the provider's current SL/TP when either stop differs from the matched
receiver trade's, emits nothing when both agree, and in neither case
re-opens (hence never re-sizes or re-filters) the trade. -/
theorem process_already_copied (s : Settings) (mappings : List SymbolMapping)
    (pa ra : Account) (m : List (Int × RTrade)) (tr : PTrade)
    (existing : RTrade) (h : dlookup tr.ticket m = some existing) :
    ((existing.sl ≠ tr.sl ∨ existing.tp ≠ tr.tp) →
      process_provider_trade s mappings pa ra m tr =
        [Action.modifyStops existing.ticket tr.sl tr.tp]) ∧
    ((existing.sl = tr.sl ∧ existing.tp = tr.tp) →
      process_provider_trade s mappings pa ra m tr = []) ∧
    (∀ a ∈ process_provider_trade s mappings pa ra m tr,
      isOpenAct a = false) := by
  unfold process_provider_trade
  rw [h]
  simp only
  refine ⟨?_, ?_, ?_⟩
  · intro hd
    rw [if_pos hd]
  · intro hd
    rw [if_neg (by simp [hd.1, hd.2])]
  · intro a ha
    split_ifs at ha <;> simp at ha
    subst ha
    rfl

/-- The matched receiver copy (receiver ticket 77) of provider trade 555,
with stops 1/2. -/
def exRT77 : RTrade :=
  { ticket := 77, sl := 1, tp := 2, comment := "[TKT=555]".data,
    price_open := some 1, price_current := some 2 }

/-- Provider trade 555 with moved stop-loss (3 instead of 1). -/
def exPT555 : PTrade :=
  { ticket := 555, type := "BUY", symbol := "EURUSD".data, volume := 1,
    sl := 3, tp := 2, price_open := none }

/-- Witness for C6: the moved stop-loss yields exactly the one
`modify_position` with the provider's stops. -/
theorem process_already_copied_witness :
    process_provider_trade exSettingsC5 [] exAcct exAcct
      [((555 : Int), exRT77)] exPT555 = [Action.modifyStops 77 3 2] :=
  (process_already_copied exSettingsC5 [] exAcct exAcct
      [((555 : Int), exRT77)] exPT555 exRT77 rfl).1
    (Or.inl (by norm_num [exRT77, exPT555]))

/-- A receiver trade whose comment carries a tag with a non-numeric
payload. -/
def exRTbad : RTrade :=
  { ticket := 3, sl := 0, tp := 0, comment := "[TKT=x]".data,
    price_open := none, price_current := none }

/-- Counterexample to C7 as stated: the comment `"[TKT=x]"` is a malformed
tag, yet the resolver does not silently skip it — `int("x")` raises a
`ValueError` that aborts the resolver scan (and with it the cycle for the
pair, via the enclosing `try`). -/
theorem extract_ticket_valueerror_cex :
    extract_ticket "[TKT=x]".data = Except.error () ∧
    scan_trades [exRTbad] [] = Except.error () := by
  constructor <;> rfl

/-- **C7 (amended).** A receiver comment with no `"TKT="` marker, no `']'`
after it, or an empty slice between the two is silently skipped by the
resolver (the trade is simply untracked and the scan continues); but a
nonempty non-numeric slice raises a `ValueError` that aborts the resolver
scan for the pair. -/
theorem extract_ticket_skip_cases :
    (∀ comment : List Char, findSub comment tktMarker = none →
      extract_ticket comment = .ok none) ∧
    (∀ (comment : List Char) (i : Nat), findSub comment tktMarker = some i →
      findCharFrom comment ']' (i + 4) = none →
      extract_ticket comment = .ok none) ∧
    (∀ (comment : List Char) (i stop : Nat),
      findSub comment tktMarker = some i →
      findCharFrom comment ']' (i + 4) = some stop → ¬ i + 4 < stop →
      extract_ticket comment = .ok none) ∧
    (∀ (tr : RTrade) (rest : List RTrade) (m : List (Int × RTrade)),
      extract_ticket tr.comment = .ok none →
      scan_trades (tr :: rest) m = scan_trades rest m) ∧
    (∀ (tr : RTrade) (rest : List RTrade) (m : List (Int × RTrade)),
      extract_ticket tr.comment = .error () →
      scan_trades (tr :: rest) m = .error ()) := by
  refine ⟨?_, ?_, ?_, ?_, ?_⟩
  · intro c h
    unfold extract_ticket
    rw [h]
  · intro c i h1 h2
    unfold extract_ticket
    simp only [h1, h2]
  · intro c i stop h1 h2 h3
    unfold extract_ticket
    simp only [h1, h2, if_neg h3]
  · intro tr rest m h
    simp only [scan_trades, h]
  · intro tr rest m h
    simp only [scan_trades, h]

/-- Witness for C7 (amended): a tagless comment is skipped. -/
theorem extract_ticket_skip_cases_witness :
    extract_ticket "hello".data = Except.ok none :=
  extract_ticket_skip_cases.1 "hello".data rfl

/-- **C8.** A receiver trade in the snapshot whose comment yields no
correlation tag never enters the correlation map, and — receiver tickets
being unique in the snapshot — no modify/close/delete attempt of the cycle
targets its ticket (every such attempt targets the ticket of some mapped
trade). -/
theorem untagged_trade_untouched (s : Settings)
    (mappings : List SymbolMapping) (pa ra : Account)
    (positions orders : List RTrade) (P : List PTrade)
    (m : List (Int × RTrade)) (plan : List Action) (rt : RTrade)
    (hmem : rt ∈ positions ∨ rt ∈ orders)
    (hnotag : extract_ticket rt.comment = .ok none)
    (huniq : ∀ rt' : RTrade, (rt' ∈ positions ∨ rt' ∈ orders) →
      rt'.ticket = rt.ticket → rt' = rt)
    (hmap : build_map positions orders = .ok m)
    (hplan : copy_cycle s mappings pa ra positions orders P = .ok plan) :
    (∀ pr ∈ m, pr.2 ≠ rt) ∧
    (∀ a ∈ plan, ∀ tk, targetTicket a = some tk → tk ≠ rt.ticket) := by
  have hvals := build_map_mem hmap
  constructor
  · intro pr hpr he
    have h2 := (hvals pr hpr).2
    rw [he, hnotag] at h2
    simp at h2
  · intro a ha tk htk he
    subst he
    obtain ⟨pr, hpr, hticket⟩ :=
      plan_targets_in_map s mappings pa ra positions orders P m plan
        hmap hplan a ha _ htk
    have h1 := hvals pr hpr
    have h2 : pr.2 = rt := huniq pr.2 h1.1 hticket
    rw [h2, hnotag] at h1
    simp at h1

/-- An untagged receiver position (plain `"hello"` comment). -/
def exRTu : RTrade :=
  { ticket := 10, sl := 0, tp := 0, comment := "hello".data,
    price_open := some 1, price_current := some 2 }

/-- Witness for C8: with a tagged position (ticket 9, tag 7) and the
untagged one (ticket 10) in the snapshot and an empty provider snapshot,
the map holds only the tagged trade and the one close attempt targets
ticket 9, never 10. -/
theorem untagged_trade_untouched_witness :
    (∀ pr ∈ [((7 : Int), exRTpos)], pr.2 ≠ exRTu) ∧
    (∀ a ∈ [Action.closePos 9], ∀ tk, targetTicket a = some tk →
      tk ≠ exRTu.ticket) :=
  untagged_trade_untouched exSettingsC5 [] exAcct exAcct
    [exRTpos, exRTu] [] [] [((7 : Int), exRTpos)] [Action.closePos 9] exRTu
    (Or.inl (by simp))
    rfl
    (by
      intro rt' h he
      rcases h with h | h
      · rcases List.mem_cons.mp h with rfl | h
        · exact absurd he (by decide)
        · simpa using h
      · simp at h)
    rfl
    rfl

end RmCopy
